import Mathlib

/-!
Verification of the lead-ingestion core of `app.py` (header normalization,
schema/alias registry, header reconciliation, schema evolution, identity
derivation, deduplicating ingestion and run logging).

The embedding is a direct shallow translation of the Python source:

* strings are Lean `String`s; Python `str.lower`, `str.strip`, `str.isalnum`,
  `str.isdigit` and `str.split(',')` are translated character-by-character
  (ASCII behaviour, which is what the application's data uses);
* the SQLite `config` table is an ordered list of rows (`List ConfigRow`),
  the `leads` table a list of inserted records, `processing_log` and
  `mapping_history` append-only lists;
* Python dict assignment (`d[k] = v`, last write wins) is modelled by
  prepending to an association list and reading with `List.lookup`, which
  returns the most recently inserted binding.
-/

/-- Python's `str.split(',')` on a list of characters: `''.split(',') = ['']`,
and every comma starts a new (possibly empty) fragment. -/
def splitComma : List Char → List (List Char)
  | [] => [[]]
  | c :: rest =>
    let r := splitComma rest
    if c = ',' then [] :: r
    else
      match r with
      | [] => [[c]]
      | g :: gs => (c :: g) :: gs

/-- Python's `str.strip()` (whitespace trimming on both ends). -/
def trimChars (l : List Char) : List Char :=
  ((l.dropWhile Char.isWhitespace).reverse.dropWhile Char.isWhitespace).reverse

/-- Python `s.strip()` on `String`. -/
def strTrim (s : String) : String := String.mk (trimChars s.data)

/-- Python `s.lower()` on `String` (ASCII). -/
def strLower (s : String) : String := String.mk (s.data.map Char.toLower)

/-- Python `s.split(',')` on `String`. -/
def strSplitComma (s : String) : List String := (splitComma s.data).map String.mk

/-- Function `normalize_header` from `app.py`: lower-case, keep only alphanumerics;
falsy input normalizes to the empty string. -/
def normalize_header (h : String) : String :=
  String.mk ((h.data.map Char.toLower).filter Char.isAlphanum)

/-- Function `generate_lead_id` from `app.py`: non-blank email wins (lower-cased,
trimmed); otherwise a non-blank phone yields `"PHONE_"` followed by the
digits of the phone; otherwise the empty identity. -/
def generate_lead_id (email phone : String) : String :=
  if strTrim email ≠ "" then strTrim (strLower email)
  else if strTrim phone ≠ "" then "PHONE_" ++ String.mk (phone.data.filter Char.isDigit)
  else ""

/-- One row of the `config` table: `(canonical_column, header_aliases, required)`. -/
structure ConfigRow where
  canonical_column : String
  header_aliases : String
  required : Bool
deriving DecidableEq, Repr

/-- Alias parsing in `get_schema`: split the stored alias string on commas,
strip each part, drop blanks. -/
def parseAliases (s : String) : List String :=
  ((strSplitComma s).map strTrim).filter (fun a => a ≠ "")

/-- The raw aliases contributed by one config row: the parsed alias list plus
the canonical name itself (appended last, as in `get_schema`). -/
def rowAliasList (r : ConfigRow) : List String :=
  parseAliases r.header_aliases ++ [r.canonical_column]

/-- The normalized alias keys contributed by one config row, in insertion
order. -/
def rowKeys (r : ConfigRow) : List String :=
  (rowAliasList r).map normalize_header

/-- Insert the keys of one config row into the alias map.  Prepending means a
later insertion shadows an earlier binding of the same key under
`List.lookup`, exactly like Python dict assignment. -/
def insertKeys (canonical : String) (ks : List String) (m : List (String × String)) :
    List (String × String) :=
  ks.foldl (fun m' k => (k, canonical) :: m') m

/-- The `alias_map` built by `get_schema`: rows in config order, each row's
normalized aliases assigned into the dict. -/
def buildAliasMap (config : List ConfigRow) : List (String × String) :=
  config.foldl (fun m r => insertKeys r.canonical_column (rowKeys r) m) []

/-- The schema dictionary returned by `get_schema`. -/
structure Schema where
  columns : List String
  alias_map : List (String × String)
  required_columns : List String
deriving DecidableEq, Repr

/-- Function `get_schema` from `app.py` (reading the `config` table in row order). -/
def get_schema (config : List ConfigRow) : Schema :=
  { columns := config.map (·.canonical_column)
    alias_map := buildAliasMap config
    required_columns := (config.filter (·.required)).map (·.canonical_column) }

/-- Function `map_headers` from `app.py`: resolved headers go to the header map (in
file order), misses are appended to the unknown list (in file order). -/
def map_headers (headers : List String) (schema : Schema) :
    List (String × String) × List String :=
  headers.foldl
    (fun acc h =>
      match List.lookup (normalize_header h) schema.alias_map with
      | some c => (acc.1 ++ [(h, c)], acc.2)
      | none => (acc.1, acc.2 ++ [h]))
    ([], [])

/-- A parsed file row: raw header to cell value.  A pandas `NaN`/missing cell
is modelled as an absent key (the code turns it into `''`). -/
abbrev Row := List (String × String)

/-- Python `row.get(h, '')` followed by the `str(value) if pd.notna(value) else ''`
coercion. -/
def rowGet (row : Row) (h : String) : String := (List.lookup h row).getD ""

/-- Dictionary read with `''` default: `d.get(k, '')`. -/
def lookupD (l : List (String × String)) (k : String) : String :=
  (List.lookup k l).getD ""

/-- The `lead_data` materialization in `process_data`: iterate `header_map` in
insertion order, assigning into a dict keyed by canonical column (prepending,
so a later assignment for the same canonical column wins the lookup). -/
def leadData (header_map : List (String × String)) (row : Row) :
    List (String × String) :=
  header_map.foldl (fun acc p => (p.2, rowGet row p.1) :: acc) []

/-- Python `lead_data.get('email', '')`. -/
def emailOf (ld : List (String × String)) : String := lookupD ld "email"

/-- Python `lead_data.get('mobile_phone') or lead_data.get('company_phone', '')`:
a missing or empty mobile phone falls back to the company phone; any
non-empty mobile string (even pure whitespace) is kept. -/
def phoneOf (ld : List (String × String)) : String :=
  if lookupD ld "mobile_phone" ≠ "" then lookupD ld "mobile_phone"
  else lookupD ld "company_phone"

/-- The identity the pipeline derives for one materialized record. -/
def deriveIdentity (ld : List (String × String)) : String :=
  generate_lead_id (emailOf ld) (phoneOf ld)

/-- A stored `leads` row, as the column/value pairs the INSERT statement in
`process_data` actually writes (the fixed 17 columns plus `lead_status`;
dynamically ALTERed columns are never part of this INSERT). -/
abbrev Rec := List (String × String)

/-- The record inserted by `process_data` for one lead. -/
def insertedRecord (ld : List (String × String)) (lead_id source_file : String) : Rec :=
  [("lead_id", lead_id),
   ("name", lookupD ld "name"),
   ("email", lookupD ld "email"),
   ("last_name", lookupD ld "last_name"),
   ("title", lookupD ld "title"),
   ("company_name", lookupD ld "company_name"),
   ("mobile_phone", lookupD ld "mobile_phone"),
   ("company_phone", lookupD ld "company_phone"),
   ("employee_count", lookupD ld "employee_count"),
   ("person_linkedin_url", lookupD ld "person_linkedin_url"),
   ("website", lookupD ld "website"),
   ("company_linkedin_url", lookupD ld "company_linkedin_url"),
   ("city", lookupD ld "city"),
   ("state", lookupD ld "state"),
   ("country", lookupD ld "country"),
   ("industry", lookupD ld "industry"),
   ("source_file", source_file),
   ("lead_status", "Active")]

/-- Whether `SELECT COUNT(*) FROM leads WHERE lead_id = ?` is positive. -/
def dbHasId (db : List Rec) (id : String) : Bool :=
  db.any (fun r => (List.lookup "lead_id" r).getD "" == id)

/-- Function `check_duplicate` from `app.py` (reads the committed leads table). -/
def check_duplicate (db : List Rec) (email phone : String) : Bool :=
  let lead_id := generate_lead_id email phone
  if lead_id = "" then false else dbHasId db lead_id

/-- In-flight state of one `process_data` run: leads inserted so far in this
run (uncommitted, but visible to this run's INSERT uniqueness constraint)
and the two counters. -/
structure RunState where
  ins : List Rec
  new_leads : Nat
  duplicates : Nat
deriving DecidableEq, Repr

/-- The per-row body of the loop in `process_data`.  `db0` is the committed
leads table at the start of the run: `check_duplicate` opens a fresh
connection and therefore sees only `db0`, while the UNIQUE constraint on
`lead_id` (the `sqlite3.IntegrityError` branch) also sees this run's own
uncommitted inserts. -/
def processRow (db0 : List Rec) (header_map : List (String × String))
    (source_file : String) (st : RunState) (row : Row) : RunState :=
  let ld := leadData header_map row
  let email := emailOf ld
  let phone := phoneOf ld
  let lead_id := generate_lead_id email phone
  if lead_id = "" then st
  else if check_duplicate db0 email phone then
    { st with duplicates := st.duplicates + 1 }
  else if dbHasId st.ins lead_id then
    { st with duplicates := st.duplicates + 1 }
  else
    { st with ins := st.ins ++ [insertedRecord ld lead_id source_file]
              new_leads := st.new_leads + 1 }

/-- One row of `processing_log` (the stored, unrounded `success_rate`;
the HTTP response additionally rounds it to one decimal). -/
structure LogEntry where
  source_file : String
  total_rows : Nat
  new_leads : Nat
  duplicates : Nat
  success_rate : ℚ
deriving DecidableEq, Repr

/-- Everything `process_data` produces: the returned summary, the leads table
after commit and the processing log after commit. -/
structure RunOutcome where
  status : String
  total_rows : Nat
  new_leads : Nat
  duplicates : Nat
  success_rate : ℚ
  dbAfter : List Rec
  logAfter : List LogEntry
deriving DecidableEq, Repr

/-- Function `process_data` from `app.py`. -/
def process_data (db0 : List Rec) (log0 : List LogEntry) (rows : List Row)
    (header_map : List (String × String)) (source_file : String) : RunOutcome :=
  let st := rows.foldl (processRow db0 header_map source_file) ⟨[], 0, 0⟩
  let rate : ℚ :=
    if 0 < rows.length then (st.new_leads : ℚ) / (rows.length : ℚ) * 100 else 0
  { status := "success"
    total_rows := rows.length
    new_leads := st.new_leads
    duplicates := st.duplicates
    success_rate := rate
    dbAfter := db0 ++ st.ins
    logAfter := log0 ++ [⟨source_file, rows.length, st.new_leads, st.duplicates, rate⟩] }

/-- A schema-evolution decision from the `apply_mapping` request body. -/
inductive MAction where
  | mapExisting (targetColumn : String)
  | createNew (newColumnName : String) (isRequired : Bool)
deriving DecidableEq, Repr

/-- One mapping intent: the unknown header plus the chosen action. -/
structure Mapping where
  originalHeader : String
  action : MAction
deriving DecidableEq, Repr

/-- The `action` string logged to `mapping_history`. -/
def actionName : MAction → String
  | .mapExisting _ => "map_existing"
  | .createNew _ _ => "create_new"

/-- The `target_column` logged to `mapping_history`
(`mapping.get('targetColumn') or mapping.get('newColumnName')`). -/
def targetName : MAction → String
  | .mapExisting t => t
  | .createNew n _ => n

/-- One row of `mapping_history`. -/
structure HistEntry where
  original_header : String
  action : String
  target_column : String
deriving DecidableEq, Repr

/-- The effect of one mapping decision on the `config` table, from the loop
body of `apply_mapping`:

* `map_existing`: if the target canonical column exists, its stored alias
  string becomes `current ++ "," ++ originalHeader` (plain comma-join); if it
  does not exist the decision is silently skipped;
* `create_new`: `INSERT OR IGNORE` — appended only when no config row with
  that canonical name exists.  (The accompanying `ALTER TABLE leads ADD
  COLUMN` only widens the table shape; the INSERT in `process_data` never
  writes the new column, so it needs no further modelling.) -/
def applyOneMapping (config : List ConfigRow) (m : Mapping) : List ConfigRow :=
  match m.action with
  | .mapExisting target =>
    if config.any (fun r => r.canonical_column = target) then
      config.map (fun r =>
        if r.canonical_column = target then
          { r with header_aliases := r.header_aliases ++ "," ++ m.originalHeader }
        else r)
    else config
  | .createNew name req =>
    if config.any (fun r => r.canonical_column = name) then config
    else config ++ [⟨name, m.originalHeader, req⟩]

/-- All decisions of one resolution batch applied in order (single
transaction, committed at the end of the loop). -/
def applyMappings (config : List ConfigRow) (ms : List Mapping) : List ConfigRow :=
  ms.foldl applyOneMapping config

/-- What the `apply_mapping` endpoint leaves behind and returns. -/
structure MapResult where
  configAfter : List ConfigRow
  historyAfter : List HistEntry
  unknown : List String
  outcome : RunOutcome
deriving DecidableEq, Repr

/-- Function `apply_mapping` from `app.py`: apply and log every decision, commit,
rebuild the schema, re-reconcile the original headers against it, and then
unconditionally process the rows with whatever header map resulted (any
still-unknown headers are simply not in the map). -/
def apply_mapping (config : List ConfigRow) (db0 : List Rec) (log0 : List LogEntry)
    (hist0 : List HistEntry) (ms : List Mapping) (headers : List String)
    (rows : List Row) (temp_file : String) : MapResult :=
  let configAfter := applyMappings config ms
  let historyAfter :=
    hist0 ++ ms.map (fun m => ⟨m.originalHeader, actionName m.action, targetName m.action⟩)
  let schema := get_schema configAfter
  let p := map_headers headers schema
  { configAfter := configAfter
    historyAfter := historyAfter
    unknown := p.2
    outcome := process_data db0 log0 rows p.1 temp_file }

/-- Result of the `upload_file` endpoint: either the NeedsMapping suspension
(with the unknown headers, the schema's column list and the retained temp
file) or a completed processing summary. -/
inductive UploadResult where
  | needs_mapping (unknown_headers : List String) (schema_columns : List String)
      (temp_file : String)
  | success (outcome : RunOutcome)
deriving DecidableEq, Repr

/-- Function `upload_file` from `app.py`, after parsing: reconcile the headers and
either suspend (non-empty unknown list) or process the rows. -/
def upload_file (config : List ConfigRow) (db0 : List Rec) (log0 : List LogEntry)
    (headers : List String) (rows : List Row) (filename : String) : UploadResult :=
  let schema := get_schema config
  let p := map_headers headers schema
  if p.2 ≠ [] then .needs_mapping p.2 schema.columns filename
  else .success (process_data db0 log0 rows p.1 filename)

/-- The seeded `config` table from `seed_config`. -/
def defaultConfig : List ConfigRow :=
  [⟨"name", "name,first name,full name,fname", false⟩,
   ⟨"email", "email,email address,e-mail,work email,email addr", true⟩,
   ⟨"last_name", "last name,last,lname,surname", false⟩,
   ⟨"title", "title,job title,position,role", false⟩,
   ⟨"company_name", "company,company name,organization,employer", false⟩,
   ⟨"mobile_phone", "mobile,mobile phone,cell,cell phone,personal phone", false⟩,
   ⟨"company_phone", "phone,company phone,work phone,office phone,telephone", false⟩,
   ⟨"employee_count", "employees,# employees,company size,headcount,# of employees", false⟩,
   ⟨"person_linkedin_url", "linkedin,person linkedin,linkedin url,linkedin profile,profile url", false⟩,
   ⟨"website", "website,url,company url,web,site", false⟩,
   ⟨"company_linkedin_url", "company linkedin,company linkedin url,organization linkedin", false⟩,
   ⟨"city", "city,town,location", false⟩,
   ⟨"state", "state,province,region", false⟩,
   ⟨"country", "country,nation", false⟩,
   ⟨"industry", "industry,sector,vertical,field", false⟩]

/-- The derived identity of a row under a given header map. -/
def rowId (header_map : List (String × String)) (row : Row) : String :=
  deriveIdentity (leadData header_map row)

/-! ### Alias-map lemmas (claim C1) -/

theorem lookup_insertKeys (c k : String) (ks : List String) (m : List (String × String)) :
    List.lookup k (insertKeys c ks m) = if k ∈ ks then some c else List.lookup k m := by
  induction ks generalizing m with
  | nil => simp [insertKeys]
  | cons k' ks' ih =>
    show List.lookup k (insertKeys c ks' ((k', c) :: m)) = _
    rw [ih]
    by_cases hk : k = k'
    · subst hk
      by_cases hmem : k ∈ ks' <;> simp [hmem, List.lookup]
    · have hbeq : (k == k') = false := beq_eq_false_iff_ne.mpr hk
      by_cases hmem : k ∈ ks' <;> simp [hmem, List.lookup, hbeq, hk]

theorem buildAliasMap_append (l1 l2 : List ConfigRow) :
    buildAliasMap (l1 ++ l2)
    = l2.foldl (fun m r => insertKeys r.canonical_column (rowKeys r) m)
        (buildAliasMap l1) := by
  simp [buildAliasMap, List.foldl_append]

theorem lookup_foldl_skip (k : String) (post : List ConfigRow)
    (m : List (String × String)) (h : ∀ r ∈ post, k ∉ rowKeys r) :
    List.lookup k
      (post.foldl (fun m r => insertKeys r.canonical_column (rowKeys r) m) m)
    = List.lookup k m := by
  induction post generalizing m with
  | nil => rfl
  | cons r post' ih =>
    show List.lookup k
        (post'.foldl _ (insertKeys r.canonical_column (rowKeys r) m)) = _
    rw [ih _ (fun r' hr' => h r' (List.mem_cons_of_mem _ hr')),
      lookup_insertKeys]
    simp [h r (List.mem_cons_self _ _)]

/-- Claim C1 counterexample: with two config rows `colA` (registered first)
and `colB` (registered later) both claiming the raw alias `"x"`, the built
alias table maps the normalized key `"x"` to `colB`, not to the
first-registered `colA` — the later registration overwrites the earlier one,
refuting the claim that the earlier registration is retained. -/
theorem alias_collision_first_wins_refuted :
    List.lookup "x"
        (get_schema [⟨"colA", "x", false⟩, ⟨"colB", "x", false⟩]).alias_map
      ≠ some "colA"
    ∧ List.lookup "x"
        (get_schema [⟨"colA", "x", false⟩, ⟨"colB", "x", false⟩]).alias_map
      = some "colB" := by
  constructor
  · decide
  · decide

/-- Claim C1 (corrected): when two canonical columns claim the same
normalized alias key, the built lookup table maps that key to the canonical
column registered *last* (the latest row in config order whose alias set
claims the key); every earlier registration for that key is overwritten.
Formally: if row `r` claims key `k` and no row after `r` claims `k`, the
lookup table maps `k` to `r`'s canonical column, whatever came before. -/
theorem alias_collision_last_registration_wins
    (pre post : List ConfigRow) (r : ConfigRow) (k : String)
    (h1 : k ∈ rowKeys r) (h2 : ∀ r' ∈ post, k ∉ rowKeys r') :
    List.lookup k (get_schema (pre ++ r :: post)).alias_map
    = some r.canonical_column := by
  show List.lookup k (buildAliasMap (pre ++ r :: post)) = _
  have hsplit : pre ++ r :: post = (pre ++ [r]) ++ post := by simp
  rw [hsplit, buildAliasMap_append, lookup_foldl_skip _ _ _ h2,
    buildAliasMap_append]
  show List.lookup k (insertKeys r.canonical_column (rowKeys r) (buildAliasMap pre))
    = _
  rw [lookup_insertKeys]
  simp [h1]

/-- Witness for `alias_collision_last_registration_wins` at a concrete
collision. -/
theorem alias_collision_last_registration_wins_witness :
    List.lookup "x"
      (get_schema [⟨"colA", "x", false⟩, ⟨"colB", "x", false⟩]).alias_map
    = some "colB" :=
  alias_collision_last_registration_wins
    [⟨"colA", "x", false⟩] [] ⟨"colB", "x", false⟩ "x"
    (by decide) (by decide)

/-! ### Blankness lemmas (claim C4) -/

theorem isWhitespace_toLower (c : Char) :
    c.toLower.isWhitespace = c.isWhitespace := by
  by_cases h : Char.toNat c ≥ 65 ∧ Char.toNat c ≤ 90
  · obtain ⟨h1, h2⟩ := h
    have hws : c.isWhitespace = false := by
      have hsp : c ≠ ' ' := by intro hc; subst hc; exact absurd h1 (by decide)
      have htb : c ≠ '\t' := by intro hc; subst hc; exact absurd h1 (by decide)
      have hcr : c ≠ '\r' := by intro hc; subst hc; exact absurd h1 (by decide)
      have hnl : c ≠ '\n' := by intro hc; subst hc; exact absurd h1 (by decide)
      simp [Char.isWhitespace, hsp, htb, hcr, hnl]
    rw [hws]
    have hcond : Char.toLower c = Char.ofNat (Char.toNat c + 32) := by
      simp [Char.toLower, h1, h2]
    rw [hcond]
    have h3 : 97 ≤ Char.toNat c + 32 := by omega
    have h4 : Char.toNat c + 32 ≤ 122 := by omega
    generalize hm : Char.toNat c + 32 = m at h3 h4
    interval_cases m <;> decide
  · have hcond : Char.toLower c = c := by
      simp only [Char.toLower]
      rw [if_neg h]
    rw [hcond]

theorem trimChars_eq_nil_iff (l : List Char) :
    trimChars l = [] ↔ ∀ c ∈ l, c.isWhitespace := by
  unfold trimChars
  rw [List.reverse_eq_nil_iff, List.dropWhile_eq_nil_iff]
  constructor
  · intro h c hc
    by_cases hdrop : c ∈ l.dropWhile Char.isWhitespace
    · exact h c (List.mem_reverse.mpr hdrop)
    · have hsplit := List.takeWhile_append_dropWhile (p := Char.isWhitespace) (l := l)
      rw [← hsplit] at hc
      rcases List.mem_append.mp hc with htk | hdk
      · exact List.mem_takeWhile_imp htk
      · exact absurd hdk hdrop
  · intro h c hc
    exact h c ((List.dropWhile_sublist _).mem (List.mem_reverse.mp hc))

theorem strTrim_eq_empty_iff (s : String) :
    strTrim s = "" ↔ ∀ c ∈ s.data, c.isWhitespace := by
  rw [show ("" : String) = String.mk [] from rfl]
  rw [strTrim, String.ext_iff]
  exact trimChars_eq_nil_iff s.data

theorem strTrim_strLower_eq_empty_iff (s : String) :
    strTrim (strLower s) = "" ↔ strTrim s = "" := by
  rw [strTrim_eq_empty_iff, strTrim_eq_empty_iff]
  show (∀ c ∈ s.data.map Char.toLower, c.isWhitespace) ↔ _
  rw [List.forall_mem_map]
  constructor
  · intro h c hc
    have := h c hc
    rwa [isWhitespace_toLower] at this
  · intro h c hc
    rw [isWhitespace_toLower]
    exact h c hc

theorem generate_lead_id_eq_empty_iff (e p : String) :
    generate_lead_id e p = "" ↔ strTrim e = "" ∧ strTrim p = "" := by
  unfold generate_lead_id
  by_cases he : strTrim e = ""
  · rw [if_neg (not_not_intro he)]
    by_cases hp : strTrim p = ""
    · rw [if_neg (not_not_intro hp)]
      simp [he, hp]
    · rw [if_pos hp]
      constructor
      · intro hcontra
        have hdata := congrArg String.data hcontra
        simp at hdata
      · rintro ⟨-, hp'⟩
        exact absurd hp' hp
  · rw [if_pos he]
    constructor
    · intro hcontra
      exact absurd ((strTrim_strLower_eq_empty_iff e).mp hcontra) he
    · rintro ⟨h1, -⟩
      exact absurd h1 he

/-- Claim C4 counterexample: a record materialized from a row with a blank
email, a whitespace-only mobile phone and a non-blank company phone gets the
empty identity, even though one phone-like field (the company phone) is not
blank after trimming — refuting the claimed "iff".  The truthiness fallback
`lead_data.get('mobile_phone') or lead_data.get('company_phone', '')` keeps
the whitespace-only mobile string and never consults the company phone. -/
theorem deriveIdentity_blank_iff_refuted :
    deriveIdentity
        (leadData [("Email", "email"), ("Mobile", "mobile_phone"), ("Phone", "company_phone")]
          [("Email", ""), ("Mobile", " "), ("Phone", "555-1212")])
      = ""
    ∧ strTrim
        (lookupD
          (leadData [("Email", "email"), ("Mobile", "mobile_phone"), ("Phone", "company_phone")]
            [("Email", ""), ("Mobile", " "), ("Phone", "555-1212")])
          "company_phone")
      ≠ "" := by decide

/-- Claim C4 (corrected): for every materialized record, the derived identity
is empty iff the email field is blank after trimming and the *selected* phone
value is blank after trimming, where the selected phone value is the mobile
phone field whenever that is a non-empty string (even pure whitespace) and
the company phone field otherwise. -/
theorem deriveIdentity_empty_iff (ld : List (String × String)) :
    deriveIdentity ld = ""
    ↔ strTrim (emailOf ld) = ""
      ∧ strTrim
          (if lookupD ld "mobile_phone" ≠ "" then lookupD ld "mobile_phone"
           else lookupD ld "company_phone")
        = "" :=
  generate_lead_id_eq_empty_iff (emailOf ld) (phoneOf ld)

/-! ### Per-row case lemmas for `processRow` (claims C6, C8, C9) -/

theorem lookup_insertedRecord (ld : List (String × String)) (id sf : String) :
    List.lookup "lead_id" (insertedRecord ld id sf) = some id := by
  simp [insertedRecord, List.lookup]

theorem dbHasId_append (a b : List Rec) (id : String) :
    dbHasId (a ++ b) id = (dbHasId a id || dbHasId b id) :=
  List.any_append

theorem dbHasId_insertedRecord (ld : List (String × String)) (id sf : String) :
    dbHasId [insertedRecord ld id sf] id = true := by
  simp [dbHasId, lookup_insertedRecord]

theorem processRow_id_empty (db0 : List Rec) (hm : List (String × String))
    (sf : String) (st : RunState) (row : Row) (h : rowId hm row = "") :
    processRow db0 hm sf st row = st := by
  have h' : generate_lead_id (emailOf (leadData hm row)) (phoneOf (leadData hm row)) = "" := h
  simp only [processRow]
  rw [if_pos h']

theorem processRow_dup_db0 (db0 : List Rec) (hm : List (String × String))
    (sf : String) (st : RunState) (row : Row) (h : rowId hm row ≠ "")
    (h2 : dbHasId db0 (rowId hm row) = true) :
    processRow db0 hm sf st row = { st with duplicates := st.duplicates + 1 } := by
  have h' : ¬ generate_lead_id (emailOf (leadData hm row)) (phoneOf (leadData hm row)) = "" := h
  have hcd : check_duplicate db0 (emailOf (leadData hm row)) (phoneOf (leadData hm row)) = true := by
    simp only [check_duplicate]
    rw [if_neg h']
    exact h2
  simp only [processRow]
  rw [if_neg h', if_pos hcd]

theorem processRow_dup_ins (db0 : List Rec) (hm : List (String × String))
    (sf : String) (st : RunState) (row : Row) (h : rowId hm row ≠ "")
    (h2 : dbHasId db0 (rowId hm row) = false)
    (h3 : dbHasId st.ins (rowId hm row) = true) :
    processRow db0 hm sf st row = { st with duplicates := st.duplicates + 1 } := by
  have h' : ¬ generate_lead_id (emailOf (leadData hm row)) (phoneOf (leadData hm row)) = "" := h
  have hcd : check_duplicate db0 (emailOf (leadData hm row)) (phoneOf (leadData hm row)) = false := by
    simp only [check_duplicate]
    rw [if_neg h']
    exact h2
  have h3' : dbHasId st.ins (generate_lead_id (emailOf (leadData hm row)) (phoneOf (leadData hm row))) = true := h3
  simp only [processRow]
  rw [if_neg h', if_neg (by simp [hcd]), if_pos h3']

theorem processRow_insert (db0 : List Rec) (hm : List (String × String))
    (sf : String) (st : RunState) (row : Row) (h : rowId hm row ≠ "")
    (h2 : dbHasId db0 (rowId hm row) = false)
    (h3 : dbHasId st.ins (rowId hm row) = false) :
    processRow db0 hm sf st row
    = { st with ins := st.ins ++ [insertedRecord (leadData hm row) (rowId hm row) sf]
                new_leads := st.new_leads + 1 } := by
  have h' : ¬ generate_lead_id (emailOf (leadData hm row)) (phoneOf (leadData hm row)) = "" := h
  have hcd : check_duplicate db0 (emailOf (leadData hm row)) (phoneOf (leadData hm row)) = false := by
    simp only [check_duplicate]
    rw [if_neg h']
    exact h2
  have h3' : dbHasId st.ins (generate_lead_id (emailOf (leadData hm row)) (phoneOf (leadData hm row))) = false := h3
  simp only [processRow]
  rw [if_neg h', if_neg (by simp [hcd]), if_neg (by simp [h3'])]
  rfl

theorem processRow_sum_le (db0 : List Rec) (hm : List (String × String))
    (sf : String) (st : RunState) (row : Row) :
    (processRow db0 hm sf st row).new_leads + (processRow db0 hm sf st row).duplicates
    ≤ st.new_leads + st.duplicates + 1 := by
  by_cases h : rowId hm row = ""
  · rw [processRow_id_empty _ _ _ _ _ h]; omega
  · cases h2 : dbHasId db0 (rowId hm row) with
    | true => rw [processRow_dup_db0 _ _ _ _ _ h h2]; simp; omega
    | false =>
      cases h3 : dbHasId st.ins (rowId hm row) with
      | true => rw [processRow_dup_ins _ _ _ _ _ h h2 h3]; simp; omega
      | false => rw [processRow_insert _ _ _ _ _ h h2 h3]; simp; omega

theorem foldl_sum_le (db0 : List Rec) (hm : List (String × String)) (sf : String) :
    ∀ (rows : List Row) (st : RunState),
      (rows.foldl (processRow db0 hm sf) st).new_leads
        + (rows.foldl (processRow db0 hm sf) st).duplicates
      ≤ st.new_leads + st.duplicates + rows.length := by
  intro rows
  induction rows with
  | nil => intro st; simp
  | cons row rest ih =>
    intro st
    have h1 := processRow_sum_le db0 hm sf st row
    have h2 := ih (processRow db0 hm sf st row)
    simp only [List.foldl_cons, List.length_cons]
    omega

theorem processRow_dup_mono (db0 : List Rec) (hm : List (String × String))
    (sf : String) (st : RunState) (row : Row) :
    st.duplicates ≤ (processRow db0 hm sf st row).duplicates := by
  by_cases h : rowId hm row = ""
  · rw [processRow_id_empty _ _ _ _ _ h]
  · cases h2 : dbHasId db0 (rowId hm row) with
    | true => rw [processRow_dup_db0 _ _ _ _ _ h h2]; simp
    | false =>
      cases h3 : dbHasId st.ins (rowId hm row) with
      | true => rw [processRow_dup_ins _ _ _ _ _ h h2 h3]; simp
      | false => rw [processRow_insert _ _ _ _ _ h h2 h3]

theorem foldl_dup_mono (db0 : List Rec) (hm : List (String × String)) (sf : String) :
    ∀ (rows : List Row) (st : RunState),
      st.duplicates ≤ (rows.foldl (processRow db0 hm sf) st).duplicates := by
  intro rows
  induction rows with
  | nil => intro st; simp
  | cons row rest ih =>
    intro st
    have h1 := processRow_dup_mono db0 hm sf st row
    have h2 := ih (processRow db0 hm sf st row)
    simp only [List.foldl_cons]
    omega

theorem processRow_ins_ext (db0 : List Rec) (hm : List (String × String))
    (sf : String) (st : RunState) (row : Row) :
    ∃ e, (processRow db0 hm sf st row).ins = st.ins ++ e := by
  by_cases h : rowId hm row = ""
  · exact ⟨[], by rw [processRow_id_empty _ _ _ _ _ h]; simp⟩
  · cases h2 : dbHasId db0 (rowId hm row) with
    | true => exact ⟨[], by rw [processRow_dup_db0 _ _ _ _ _ h h2]; simp⟩
    | false =>
      cases h3 : dbHasId st.ins (rowId hm row) with
      | true => exact ⟨[], by rw [processRow_dup_ins _ _ _ _ _ h h2 h3]; simp⟩
      | false =>
        exact ⟨[insertedRecord (leadData hm row) (rowId hm row) sf],
          by rw [processRow_insert _ _ _ _ _ h h2 h3]⟩

theorem foldl_ins_ext (db0 : List Rec) (hm : List (String × String)) (sf : String) :
    ∀ (rows : List Row) (st : RunState),
      ∃ e, (rows.foldl (processRow db0 hm sf) st).ins = st.ins ++ e := by
  intro rows
  induction rows with
  | nil => intro st; exact ⟨[], by simp⟩
  | cons row rest ih =>
    intro st
    obtain ⟨e1, he1⟩ := processRow_ins_ext db0 hm sf st row
    obtain ⟨e2, he2⟩ := ih (processRow db0 hm sf st row)
    exact ⟨e1 ++ e2, by simp only [List.foldl_cons, he2, he1, List.append_assoc]⟩

/-- Claim C8 (confirmed): in any run, every row increments at most one of the
two counters (rows with an empty derived identity increment neither), so
`new_leads + duplicates` never exceeds `total_rows` in the run summary. -/
theorem counters_bounded_by_total_rows (db0 : List Rec) (log0 : List LogEntry)
    (rows : List Row) (hm : List (String × String)) (sf : String) :
    (process_data db0 log0 rows hm sf).new_leads
      + (process_data db0 log0 rows hm sf).duplicates
    ≤ (process_data db0 log0 rows hm sf).total_rows := by
  have h := foldl_sum_le db0 hm sf rows ⟨[], 0, 0⟩
  simp only [process_data]
  simpa using h

theorem foldl_no_dup_analysis (db0 : List Rec) (hm : List (String × String)) (sf : String) :
    ∀ (rows : List Row) (st : RunState),
      (rows.foldl (processRow db0 hm sf) st).duplicates = st.duplicates →
      (rows.foldl (processRow db0 hm sf) st).new_leads
          = st.new_leads + rows.countP (fun r => rowId hm r != "")
        ∧ ∀ r ∈ rows, rowId hm r ≠ "" →
            dbHasId (rows.foldl (processRow db0 hm sf) st).ins (rowId hm r) = true := by
  intro rows
  induction rows with
  | nil => intro st _; simp
  | cons row rest ih =>
    intro st hdup
    simp only [List.foldl_cons] at hdup ⊢
    by_cases h : rowId hm row = ""
    · rw [processRow_id_empty db0 hm sf st row h] at hdup ⊢
      obtain ⟨hnew, hmem⟩ := ih st hdup
      refine ⟨?_, ?_⟩
      · rw [hnew]
        have hb : (rowId hm row != "") = false := by simp [h]
        simp [List.countP_cons, hb]
      · intro r hr hne
        rcases List.mem_cons.mp hr with rfl | hr'
        · exact absurd h hne
        · exact hmem r hr' hne
    · cases h2 : dbHasId db0 (rowId hm row) with
      | true =>
        rw [processRow_dup_db0 db0 hm sf st row h h2] at hdup
        have hmono := foldl_dup_mono db0 hm sf rest
          { st with duplicates := st.duplicates + 1 }
        exfalso
        simp only [] at hmono
        omega
      | false =>
        cases h3 : dbHasId st.ins (rowId hm row) with
        | true =>
          rw [processRow_dup_ins db0 hm sf st row h h2 h3] at hdup
          have hmono := foldl_dup_mono db0 hm sf rest
            { st with duplicates := st.duplicates + 1 }
          exfalso
          simp only [] at hmono
          omega
        | false =>
          rw [processRow_insert db0 hm sf st row h h2 h3] at hdup ⊢
          obtain ⟨hnew, hmem⟩ := ih _ hdup
          refine ⟨?_, ?_⟩
          · rw [hnew]
            have hb : (rowId hm row != "") = true := bne_iff_ne.mpr h
            simp [List.countP_cons, hb]
            omega
          · intro r hr hne
            rcases List.mem_cons.mp hr with rfl | hr'
            · obtain ⟨e, he⟩ := foldl_ins_ext db0 hm sf rest
                { st with ins := st.ins ++ [insertedRecord (leadData hm r) (rowId hm r) sf]
                          new_leads := st.new_leads + 1 }
              rw [he, dbHasId_append]
              have hself :
                  dbHasId
                    ({ st with
                        ins := st.ins ++ [insertedRecord (leadData hm r) (rowId hm r) sf]
                        new_leads := st.new_leads + 1 } : RunState).ins
                    (rowId hm r) = true := by
                show dbHasId (st.ins ++ [insertedRecord (leadData hm r) (rowId hm r) sf]) _ = true
                rw [dbHasId_append, dbHasId_insertedRecord]
                simp
              rw [hself]
              simp
            · exact hmem r hr' hne

theorem foldl_all_in_db0 (db0 : List Rec) (hm : List (String × String)) (sf : String) :
    ∀ (rows : List Row) (st : RunState),
      (∀ r ∈ rows, rowId hm r ≠ "" → dbHasId db0 (rowId hm r) = true) →
      rows.foldl (processRow db0 hm sf) st
      = ⟨st.ins, st.new_leads,
          st.duplicates + rows.countP (fun r => rowId hm r != "")⟩ := by
  intro rows
  induction rows with
  | nil => intro st _; simp
  | cons row rest ih =>
    intro st hall
    simp only [List.foldl_cons]
    by_cases h : rowId hm row = ""
    · rw [processRow_id_empty db0 hm sf st row h,
        ih st (fun r hr => hall r (List.mem_cons_of_mem _ hr))]
      have hb : (rowId hm row != "") = false := by simp [h]
      simp [List.countP_cons, hb]
    · have h2 : dbHasId db0 (rowId hm row) = true :=
        hall row (List.mem_cons_self _ _) h
      rw [processRow_dup_db0 db0 hm sf st row h h2,
        ih _ (fun r hr => hall r (List.mem_cons_of_mem _ hr))]
      have hb : (rowId hm row != "") = true := bne_iff_ne.mpr h
      simp [List.countP_cons, hb, RunState.mk.injEq]
      omega

/-- Claim C6 counterexample: for a one-row file, the first ingestion reports
`new_leads = 1` (so `N = 1`), but the second ingestion of the same file
reports `new_leads = 0 ≠ N`.  Moreover, for a two-row file whose rows carry
the same email, the first run reports `new_leads = 1` (`N = 1`) and the
second run reports `duplicates = 2 ≠ N`.  Both refute the claim that the
second ingestion reports `new_leads = N and duplicates = N`. -/
theorem second_ingestion_refuted :
    ((process_data [] [] [[("Email", "a@b.com")]] [("Email", "email")] "f").new_leads = 1
      ∧ (process_data
            (process_data [] [] [[("Email", "a@b.com")]] [("Email", "email")] "f").dbAfter
            (process_data [] [] [[("Email", "a@b.com")]] [("Email", "email")] "f").logAfter
            [[("Email", "a@b.com")]] [("Email", "email")] "f").new_leads = 0)
    ∧ ((process_data [] [] [[("Email", "a@b.com")], [("Email", "a@b.com")]]
          [("Email", "email")] "g").new_leads = 1
      ∧ (process_data
            (process_data [] [] [[("Email", "a@b.com")], [("Email", "a@b.com")]]
              [("Email", "email")] "g").dbAfter
            (process_data [] [] [[("Email", "a@b.com")], [("Email", "a@b.com")]]
              [("Email", "email")] "g").logAfter
            [[("Email", "a@b.com")], [("Email", "a@b.com")]]
            [("Email", "email")] "g").duplicates = 2) := by
  refine ⟨⟨?_, ?_⟩, ?_, ?_⟩ <;> decide

/-- Claim C6 (corrected): for every file whose first ingestion (with the
schema, hence the header map, left unchanged afterwards) reports
`new_leads = N` and `duplicates = 0`, a second ingestion of the same file
reports `new_leads = 0` and `duplicates = N`: every record that was new
becomes a duplicate, and rows that were skipped as unidentifiable are
skipped again.  (Without `duplicates = 0` on the first run the claim fails:
intra-file duplicates are counted again on the second run, see the
counterexample.) -/
theorem second_ingestion_counts (db0 : List Rec) (log0 : List LogEntry)
    (rows : List Row) (hm : List (String × String)) (sf : String)
    (h : (process_data db0 log0 rows hm sf).duplicates = 0) :
    (process_data (process_data db0 log0 rows hm sf).dbAfter
        (process_data db0 log0 rows hm sf).logAfter rows hm sf).new_leads = 0
    ∧ (process_data (process_data db0 log0 rows hm sf).dbAfter
        (process_data db0 log0 rows hm sf).logAfter rows hm sf).duplicates
      = (process_data db0 log0 rows hm sf).new_leads := by
  have hF : (rows.foldl (processRow db0 hm sf) ⟨[], 0, 0⟩).duplicates = 0 := h
  obtain ⟨hnew, hmem⟩ := foldl_no_dup_analysis db0 hm sf rows ⟨[], 0, 0⟩ hF
  have hall : ∀ r ∈ rows, rowId hm r ≠ "" →
      dbHasId (db0 ++ (rows.foldl (processRow db0 hm sf) ⟨[], 0, 0⟩).ins)
        (rowId hm r) = true := by
    intro r hr hne
    rw [dbHasId_append, hmem r hr hne]
    simp
  have hrun2 := foldl_all_in_db0
    (db0 ++ (rows.foldl (processRow db0 hm sf) ⟨[], 0, 0⟩).ins) hm sf rows
    ⟨[], 0, 0⟩ hall
  constructor
  · show (rows.foldl
        (processRow (db0 ++ (rows.foldl (processRow db0 hm sf) ⟨[], 0, 0⟩).ins) hm sf)
        ⟨[], 0, 0⟩).new_leads = 0
    rw [hrun2]
  · show (rows.foldl
        (processRow (db0 ++ (rows.foldl (processRow db0 hm sf) ⟨[], 0, 0⟩).ins) hm sf)
        ⟨[], 0, 0⟩).duplicates
      = (rows.foldl (processRow db0 hm sf) ⟨[], 0, 0⟩).new_leads
    rw [hrun2, hnew]

/-- Witness for `second_ingestion_counts` on a concrete one-row file. -/
theorem second_ingestion_counts_witness :
    (process_data [] [] [[("Email", "w@x.com")]] [("Email", "email")] "w").duplicates = 0
    ∧ ((process_data (process_data [] [] [[("Email", "w@x.com")]] [("Email", "email")] "w").dbAfter
          (process_data [] [] [[("Email", "w@x.com")]] [("Email", "email")] "w").logAfter
          [[("Email", "w@x.com")]] [("Email", "email")] "w").new_leads = 0
        ∧ (process_data (process_data [] [] [[("Email", "w@x.com")]] [("Email", "email")] "w").dbAfter
            (process_data [] [] [[("Email", "w@x.com")]] [("Email", "email")] "w").logAfter
            [[("Email", "w@x.com")]] [("Email", "email")] "w").duplicates
          = (process_data [] [] [[("Email", "w@x.com")]] [("Email", "email")] "w").new_leads) :=
  ⟨by decide,
    second_ingestion_counts [] [] [[("Email", "w@x.com")]] [("Email", "email")] "w"
      (by decide)⟩

theorem generate_lead_id_no_digits (e p : String) (he : strTrim e = "")
    (hp : strTrim p ≠ "") (hd : p.data.all (fun c => !c.isDigit) = true) :
    generate_lead_id e p = "PHONE_" := by
  unfold generate_lead_id
  rw [if_neg (not_not_intro he), if_pos hp]
  have hfil : p.data.filter Char.isDigit = [] := by
    rw [List.filter_eq_nil_iff]
    intro c hc
    have := List.all_eq_true.mp hd c hc
    simp at this
    simp [this]
  rw [hfil]
  rfl

theorem foldl_all_same_id (db0 : List Rec) (hm : List (String × String))
    (sf : String) (i : String) (hne : i ≠ "") :
    ∀ (rows : List Row) (st : RunState),
      (∀ r ∈ rows, rowId hm r = i) →
      (dbHasId db0 i || dbHasId st.ins i) = true →
      rows.foldl (processRow db0 hm sf) st
      = ⟨st.ins, st.new_leads, st.duplicates + rows.length⟩ := by
  intro rows
  induction rows with
  | nil => intro st _ _; simp
  | cons row rest ih =>
    intro st hall hin
    have hid : rowId hm row = i := hall row (List.mem_cons_self _ _)
    have hne' : rowId hm row ≠ "" := by rw [hid]; exact hne
    simp only [List.foldl_cons]
    cases h2 : dbHasId db0 (rowId hm row) with
    | true =>
      rw [processRow_dup_db0 db0 hm sf st row hne' h2,
        ih { st with duplicates := st.duplicates + 1 }
          (fun r hr => hall r (List.mem_cons_of_mem _ hr)) hin]
      simp [RunState.mk.injEq]
      omega
    | false =>
      have h3 : dbHasId st.ins (rowId hm row) = true := by
        rw [hid]
        rw [hid] at h2
        rcases Bool.or_eq_true_iff.mp hin with hl | hr
        · exact absurd hl (by simp [h2])
        · exact hr
      rw [processRow_dup_ins db0 hm sf st row hne' h2 h3,
        ih { st with duplicates := st.duplicates + 1 }
          (fun r hr => hall r (List.mem_cons_of_mem _ hr)) hin]
      simp [RunState.mk.injEq]
      omega

/-- Claim C9 (confirmed): a record with a blank email and a non-blank phone
value containing no digit characters gets the constant identity `"PHONE_"`.
Consequently all such records share a single identity: in a run whose rows
all have this shape, starting from a store without a `"PHONE_"` lead, exactly
the first row is stored (`new_leads = 1`) and every later row is counted as
a duplicate; and in any later run against a store that already holds the
`"PHONE_"` lead, no such row is stored and all are counted as duplicates. -/
theorem phone_no_digits_constant_identity :
    (∀ e p : String, strTrim e = "" → strTrim p ≠ "" →
        p.data.all (fun c => !c.isDigit) = true →
        generate_lead_id e p = "PHONE_")
    ∧ (∀ (db0 : List Rec) (log0 : List LogEntry) (hm : List (String × String))
        (sf : String) (row : Row) (rows : List Row),
        (∀ r ∈ row :: rows,
          strTrim (emailOf (leadData hm r)) = ""
            ∧ strTrim (phoneOf (leadData hm r)) ≠ ""
            ∧ (phoneOf (leadData hm r)).data.all (fun c => !c.isDigit) = true) →
        dbHasId db0 "PHONE_" = false →
        (process_data db0 log0 (row :: rows) hm sf).new_leads = 1
          ∧ (process_data db0 log0 (row :: rows) hm sf).duplicates = rows.length)
    ∧ (∀ (db0 : List Rec) (log0 : List LogEntry) (hm : List (String × String))
        (sf : String) (rows : List Row),
        (∀ r ∈ rows,
          strTrim (emailOf (leadData hm r)) = ""
            ∧ strTrim (phoneOf (leadData hm r)) ≠ ""
            ∧ (phoneOf (leadData hm r)).data.all (fun c => !c.isDigit) = true) →
        dbHasId db0 "PHONE_" = true →
        (process_data db0 log0 rows hm sf).new_leads = 0
          ∧ (process_data db0 log0 rows hm sf).duplicates = rows.length) := by
  have hgen : ∀ (hm : List (String × String)) (r : Row),
      strTrim (emailOf (leadData hm r)) = ""
        ∧ strTrim (phoneOf (leadData hm r)) ≠ ""
        ∧ (phoneOf (leadData hm r)).data.all (fun c => !c.isDigit) = true →
      rowId hm r = "PHONE_" := by
    rintro hm r ⟨h1, h2, h3⟩
    exact generate_lead_id_no_digits _ _ h1 h2 h3
  refine ⟨fun e p he hp hd => generate_lead_id_no_digits e p he hp hd, ?_, ?_⟩
  · intro db0 log0 hm sf row rows hall hdb
    have hid : rowId hm row = "PHONE_" :=
      hgen hm row (hall row (List.mem_cons_self _ _))
    have hne' : rowId hm row ≠ "" := by rw [hid]; decide
    have h2 : dbHasId db0 (rowId hm row) = false := by rw [hid]; exact hdb
    have h3 : dbHasId (⟨[], 0, 0⟩ : RunState).ins (rowId hm row) = false := rfl
    have hstep := processRow_insert db0 hm sf ⟨[], 0, 0⟩ row hne' h2 h3
    have hself : dbHasId ([] ++ [insertedRecord (leadData hm row) (rowId hm row) sf])
        "PHONE_" = true := by
      rw [← hid, dbHasId_append, dbHasId_insertedRecord]
      simp
    have hrest := foldl_all_same_id db0 hm sf "PHONE_" (by decide) rows
      ⟨[] ++ [insertedRecord (leadData hm row) (rowId hm row) sf], 0 + 1, 0⟩
      (fun r hr => hgen hm r (hall r (List.mem_cons_of_mem _ hr)))
      (by rw [show (⟨[] ++ [insertedRecord (leadData hm row) (rowId hm row) sf],
          0 + 1, 0⟩ : RunState).ins
          = [] ++ [insertedRecord (leadData hm row) (rowId hm row) sf] from rfl,
          hself]; simp)
    constructor
    · show ((row :: rows).foldl (processRow db0 hm sf) ⟨[], 0, 0⟩).new_leads = 1
      simp only [List.foldl_cons]
      rw [hstep]
      rw [show ({ (⟨[], 0, 0⟩ : RunState) with
          ins := [] ++ [insertedRecord (leadData hm row) (rowId hm row) sf]
          new_leads := 0 + 1 } : RunState)
        = ⟨[] ++ [insertedRecord (leadData hm row) (rowId hm row) sf], 0 + 1, 0⟩ from rfl]
      rw [hrest]
    · show ((row :: rows).foldl (processRow db0 hm sf) ⟨[], 0, 0⟩).duplicates = rows.length
      simp only [List.foldl_cons]
      rw [hstep]
      rw [show ({ (⟨[], 0, 0⟩ : RunState) with
          ins := [] ++ [insertedRecord (leadData hm row) (rowId hm row) sf]
          new_leads := 0 + 1 } : RunState)
        = ⟨[] ++ [insertedRecord (leadData hm row) (rowId hm row) sf], 0 + 1, 0⟩ from rfl]
      rw [hrest]
      simp
  · intro db0 log0 hm sf rows hall hdb
    have hrun := foldl_all_same_id db0 hm sf "PHONE_" (by decide) rows ⟨[], 0, 0⟩
      (fun r hr => hgen hm r (hall r hr))
      (by rw [hdb]; simp)
    constructor
    · show (rows.foldl (processRow db0 hm sf) ⟨[], 0, 0⟩).new_leads = 0
      rw [hrun]
    · show (rows.foldl (processRow db0 hm sf) ⟨[], 0, 0⟩).duplicates = rows.length
      rw [hrun]
      simp

/-- Witness for `phone_no_digits_constant_identity`: the identity of a blank
email with the digit-free phone `"ext."` is `"PHONE_"`, and a two-row file of
digit-free-phone records yields one stored lead and one duplicate. -/
theorem phone_no_digits_constant_identity_witness :
    generate_lead_id "" "ext." = "PHONE_"
    ∧ (process_data [] [] [[("Phone", "ext.")], [("Phone", "no digits")]]
        [("Phone", "company_phone")] "p").new_leads = 1
    ∧ (process_data [] [] [[("Phone", "ext.")], [("Phone", "no digits")]]
        [("Phone", "company_phone")] "p").duplicates = 1 :=
  ⟨phone_no_digits_constant_identity.1 "" "ext." rfl (by decide) (by decide),
    (phone_no_digits_constant_identity.2.1 [] [] [("Phone", "company_phone")] "p"
      [("Phone", "ext.")] [[("Phone", "no digits")]] (by decide) (by decide)).1,
    (phone_no_digits_constant_identity.2.1 [] [] [("Phone", "company_phone")] "p"
      [("Phone", "ext.")] [[("Phone", "no digits")]] (by decide) (by decide)).2⟩

/-- Claim C7 counterexample: for a one-row file producing one new lead, the
stored `success_rate` is `100`, while `new_leads` divided by `total_rows` is
`1` — the code stores a percentage (`new_leads / total_rows * 100`), not the
claimed quotient. -/
theorem success_rate_quotient_refuted :
    (process_data [] [] [[("Email", "c7@x.com")]] [("Email", "email")] "c7").success_rate
      = 100
    ∧ ((process_data [] [] [[("Email", "c7@x.com")]] [("Email", "email")] "c7").new_leads : ℚ)
        / ((process_data [] [] [[("Email", "c7@x.com")]] [("Email", "email")] "c7").total_rows : ℚ)
      = 1
    ∧ (100 : ℚ) ≠ 1 := by
  have hfold :
      ([[("Email", "c7@x.com")]] : List Row).foldl
        (processRow [] [("Email", "email")] "c7") ⟨[], 0, 0⟩
      = ⟨[insertedRecord (leadData [("Email", "email")] [("Email", "c7@x.com")])
            "c7@x.com" "c7"], 1, 0⟩ := by decide
  refine ⟨?_, ?_, by norm_num⟩
  · simp only [process_data, hfold]
    norm_num
  · simp only [process_data, hfold]
    norm_num

/-- Claim C7 (corrected): every completed run appends exactly one
ProcessingRun record to the log, carrying the run's `total_rows`,
`new_leads` and `duplicates`, and its stored `success_rate` is
`new_leads / total_rows * 100` (a percentage), and `0` when `total_rows`
is `0`. -/
theorem processing_log_one_entry_percentage (db0 : List Rec) (log0 : List LogEntry)
    (rows : List Row) (hm : List (String × String)) (sf : String) :
    (process_data db0 log0 rows hm sf).logAfter
      = log0 ++ [⟨sf, (process_data db0 log0 rows hm sf).total_rows,
          (process_data db0 log0 rows hm sf).new_leads,
          (process_data db0 log0 rows hm sf).duplicates,
          (process_data db0 log0 rows hm sf).success_rate⟩]
    ∧ (process_data db0 log0 rows hm sf).logAfter.length = log0.length + 1
    ∧ (process_data db0 log0 rows hm sf).success_rate
      = (if 0 < (process_data db0 log0 rows hm sf).total_rows
         then ((process_data db0 log0 rows hm sf).new_leads : ℚ)
              / ((process_data db0 log0 rows hm sf).total_rows : ℚ) * 100
         else 0) := by
  refine ⟨rfl, ?_, rfl⟩
  simp [process_data]

/-- Claim C10 (confirmed): attaching the comma-carrying raw header
`"City, State"` to the existing canonical column `city` stores it by plain
comma-joining into the column's alias string; reloading the schema re-splits
that string on commas, so the header decomposes into the fragment aliases
`"City"` and `"State"` instead of one alias, and reconciling the very same
header afterwards still fails to resolve it. -/
theorem comma_alias_fragmentation :
    applyOneMapping [⟨"city", "city,town,location", false⟩]
        ⟨"City, State", .mapExisting "city"⟩
      = [⟨"city", "city,town,location,City, State", false⟩]
    ∧ map_headers ["City, State"]
        (get_schema (applyOneMapping [⟨"city", "city,town,location", false⟩]
          ⟨"City, State", .mapExisting "city"⟩))
      = ([], ["City, State"])
    ∧ parseAliases "city,town,location,City, State"
      = ["city", "town", "location", "City", "State"]
    ∧ "City, State" ∉ parseAliases "city,town,location,City, State" := by
  refine ⟨?_, ?_, ?_, ?_⟩ <;> decide

/-- Claim C3 counterexample: a batch containing an attach decision whose
target column `"nonexistent"` does not exist, together with a column
creation, does not fail: the endpoint still returns a `"success"` outcome,
the created column is visible in the config afterwards, and the row is
inserted — refuting "is an error, the batch fails atomically, and no alias
or column mutation from that batch is visible". -/
theorem mapping_batch_missing_target_refuted :
    (apply_mapping [⟨"email", "email", true⟩] [] [] []
        [⟨"H", .mapExisting "nonexistent"⟩, ⟨"Zip Code", .createNew "zip_code" false⟩]
        ["Email", "Zip Code"]
        [[("Email", "a@b.com"), ("Zip Code", "12345")]] "t.csv").outcome.status
      = "success"
    ∧ (apply_mapping [⟨"email", "email", true⟩] [] [] []
        [⟨"H", .mapExisting "nonexistent"⟩, ⟨"Zip Code", .createNew "zip_code" false⟩]
        ["Email", "Zip Code"]
        [[("Email", "a@b.com"), ("Zip Code", "12345")]] "t.csv").configAfter
      = [⟨"email", "email", true⟩, ⟨"zip_code", "Zip Code", false⟩]
    ∧ (apply_mapping [⟨"email", "email", true⟩] [] [] []
        [⟨"H", .mapExisting "nonexistent"⟩, ⟨"Zip Code", .createNew "zip_code" false⟩]
        ["Email", "Zip Code"]
        [[("Email", "a@b.com"), ("Zip Code", "12345")]] "t.csv").outcome.new_leads
      = 1 := by
  refine ⟨?_, ?_, ?_⟩ <;> decide

/-- Claim C3 (corrected): an attach (`map_existing`) decision whose target
canonical column does not exist is silently skipped: it changes nothing (no
alias is added, no error is raised), the batch as a whole behaves exactly as
if the decision were absent, the remaining decisions are applied and
committed, and the endpoint still processes the rows and returns a
`"success"` outcome. -/
theorem attach_missing_target_silently_skipped
    (cfg : List ConfigRow) (db0 : List Rec) (log0 : List LogEntry)
    (hist0 : List HistEntry) (h t : String) (ms : List Mapping)
    (headers : List String) (rows : List Row) (tf : String)
    (hmiss : ∀ r ∈ cfg, r.canonical_column ≠ t) :
    applyOneMapping cfg ⟨h, .mapExisting t⟩ = cfg
    ∧ (apply_mapping cfg db0 log0 hist0 (⟨h, .mapExisting t⟩ :: ms) headers rows tf).configAfter
      = (apply_mapping cfg db0 log0 hist0 ms headers rows tf).configAfter
    ∧ (apply_mapping cfg db0 log0 hist0 (⟨h, .mapExisting t⟩ :: ms) headers rows tf).outcome
      = (apply_mapping cfg db0 log0 hist0 ms headers rows tf).outcome
    ∧ (apply_mapping cfg db0 log0 hist0 (⟨h, .mapExisting t⟩ :: ms) headers rows tf).outcome.status
      = "success" := by
  have hany : (cfg.any (fun r => r.canonical_column = t)) = false := by
    rw [List.any_eq_false]
    intro r hr
    simp [hmiss r hr]
  have hskip : applyOneMapping cfg ⟨h, .mapExisting t⟩ = cfg := by
    simp only [applyOneMapping]
    rw [if_neg (by simp [hany])]
  refine ⟨hskip, ?_, ?_, rfl⟩
  · show applyMappings cfg (⟨h, .mapExisting t⟩ :: ms) = applyMappings cfg ms
    simp only [applyMappings, List.foldl_cons, hskip]
  · show process_data db0 log0 rows
        (map_headers headers (get_schema (applyMappings cfg (⟨h, .mapExisting t⟩ :: ms)))).1 tf
      = process_data db0 log0 rows
        (map_headers headers (get_schema (applyMappings cfg ms))).1 tf
    have : applyMappings cfg (⟨h, .mapExisting t⟩ :: ms) = applyMappings cfg ms := by
      simp only [applyMappings, List.foldl_cons, hskip]
    rw [this]

/-- Witness for `attach_missing_target_silently_skipped` at a concrete
missing target. -/
theorem attach_missing_target_silently_skipped_witness :
    applyOneMapping [⟨"email", "email", true⟩] ⟨"H", .mapExisting "nope"⟩
    = [⟨"email", "email", true⟩] :=
  (attach_missing_target_silently_skipped [⟨"email", "email", true⟩] [] [] []
    "H" "nope" [] ["Email"] [] "t" (by decide)).1

/-- Claim C5 counterexample: resuming with a batch that resolves only one of
two unknown headers (`"Foo"` of `["Foo", "Bar"]`) leaves `"Bar"` unknown
after re-reconciliation, yet the pipeline does not halt and does not return
to NeedsMapping: the row is inserted anyway (`new_leads = 1`) — refuting
"rows are never inserted while the file has unknown headers". -/
theorem resume_with_unknown_headers_refuted :
    (apply_mapping [⟨"email", "email", true⟩] [] [] []
        [⟨"Foo", .createNew "foo" false⟩]
        ["Email", "Foo", "Bar"]
        [[("Email", "a@b.com"), ("Foo", "1"), ("Bar", "2")]] "t.csv").unknown
      = ["Bar"]
    ∧ (apply_mapping [⟨"email", "email", true⟩] [] [] []
        [⟨"Foo", .createNew "foo" false⟩]
        ["Email", "Foo", "Bar"]
        [[("Email", "a@b.com"), ("Foo", "1"), ("Bar", "2")]] "t.csv").outcome.new_leads
      = 1 := by
  refine ⟨?_, ?_⟩ <;> decide

/-- Claim C5 (corrected): resuming from NeedsMapping re-enters at full
reconciliation with the now-extended schema, but when headers are still
unknown after the batch the pipeline does not halt row insertion and does
not return to NeedsMapping: the still-unknown headers are simply left out of
the header map and every row is processed (a fresh upload in the same
post-batch state would suspend to NeedsMapping; the resume path never
does). -/
theorem resume_processes_rows_despite_unknown
    (cfg : List ConfigRow) (db0 : List Rec) (log0 : List LogEntry)
    (hist0 : List HistEntry) (ms : List Mapping) (headers : List String)
    (rows : List Row) (tf : String)
    (hunk : (map_headers headers (get_schema (applyMappings cfg ms))).2 ≠ []) :
    (apply_mapping cfg db0 log0 hist0 ms headers rows tf).outcome
      = process_data db0 log0 rows
          (map_headers headers (get_schema (applyMappings cfg ms))).1 tf
    ∧ (apply_mapping cfg db0 log0 hist0 ms headers rows tf).outcome.total_rows
      = rows.length
    ∧ upload_file (applyMappings cfg ms) db0 log0 headers rows tf
      = .needs_mapping (map_headers headers (get_schema (applyMappings cfg ms))).2
          (get_schema (applyMappings cfg ms)).columns tf := by
  refine ⟨rfl, rfl, ?_⟩
  simp only [upload_file]
  rw [if_pos hunk]

/-- Witness for `resume_processes_rows_despite_unknown`: the batch resolving
only `"Foo"` leaves `"Bar"` unknown, yet the outcome is a full processing
run. -/
theorem resume_processes_rows_despite_unknown_witness :
    (apply_mapping [⟨"email", "email", true⟩] [] [] []
        [⟨"Foo", .createNew "foo" false⟩]
        ["Email", "Foo", "Bar"]
        [[("Email", "x@y.com"), ("Foo", "1"), ("Bar", "2")]] "w.csv").outcome
      = process_data [] [] [[("Email", "x@y.com"), ("Foo", "1"), ("Bar", "2")]]
          (map_headers ["Email", "Foo", "Bar"]
            (get_schema (applyMappings [⟨"email", "email", true⟩]
              [⟨"Foo", .createNew "foo" false⟩]))).1 "w.csv" :=
  (resume_processes_rows_despite_unknown [⟨"email", "email", true⟩] [] [] []
    [⟨"Foo", .createNew "foo" false⟩] ["Email", "Foo", "Bar"]
    [[("Email", "x@y.com"), ("Foo", "1"), ("Bar", "2")]] "w.csv" (by decide)).1

/-- Claim C2 (code bug): with the seeded schema, a file with headers
`["Email", "Zip Code"]` first suspends to NeedsMapping on `"Zip Code"`;
resuming with a `createColumn` decision (`"Zip Code"` → `"zip_code"`) makes
re-reconciliation find zero unknown headers and the row is inserted, and the
materialized record even carries `zip_code = "12345"` — but the INSERT in
`process_data` writes only the 17 hard-coded columns, so no stored lead has
any `zip_code` column at all: the field is never populated, contradicting
the claimed round-trip. -/
theorem createColumn_zip_code_not_populated :
    upload_file defaultConfig [] [] ["Email", "Zip Code"]
        [[("Email", "a@b.com"), ("Zip Code", "12345")]] "z.csv"
      = .needs_mapping ["Zip Code"] (get_schema defaultConfig).columns "z.csv"
    ∧ (apply_mapping defaultConfig [] [] []
        [⟨"Zip Code", .createNew "zip_code" false⟩]
        ["Email", "Zip Code"]
        [[("Email", "a@b.com"), ("Zip Code", "12345")]] "z.csv").unknown = []
    ∧ lookupD
        (leadData
          (map_headers ["Email", "Zip Code"]
            (get_schema (applyMappings defaultConfig
              [⟨"Zip Code", .createNew "zip_code" false⟩]))).1
          [("Email", "a@b.com"), ("Zip Code", "12345")])
        "zip_code" = "12345"
    ∧ (apply_mapping defaultConfig [] [] []
        [⟨"Zip Code", .createNew "zip_code" false⟩]
        ["Email", "Zip Code"]
        [[("Email", "a@b.com"), ("Zip Code", "12345")]] "z.csv").outcome.new_leads = 1
    ∧ (apply_mapping defaultConfig [] [] []
        [⟨"Zip Code", .createNew "zip_code" false⟩]
        ["Email", "Zip Code"]
        [[("Email", "a@b.com"), ("Zip Code", "12345")]] "z.csv").outcome.dbAfter.all
          (fun r => (List.lookup "zip_code" r).isNone) = true := by
  refine ⟨?_, ?_, ?_, ?_, ?_⟩ <;> decide

example : normalize_header "E-Mail Address" = "emailaddress" := by decide
example : generate_lead_id "  Jane@X.com " "555" = "jane@x.com" := by decide
example : generate_lead_id "" "ext." = "PHONE_" := by decide
example : parseAliases "city,town,location,City, State" =
    ["city", "town", "location", "City", "State"] := by decide
example : strSplitComma "" = [""] := by decide
